import Mathlib

/-!
Shallow embedding of `src/WorkerHandler.js` (the WorkerHandler of the
worker-pool dispatch engine).  A handler's mutable state is the structure
`HState`; every handler operation of the source is a function
`HState → ... → HState`.  Effects on the outside world (messages sent to the
transport, resolver settlements, callback invocations, kill requests) are
recorded in append-only logs inside `HState`, so that theorems can speak about
what the handler did.  JavaScript `Date.now()` is an explicit `now : Nat`
argument; timers are modelled by an armed/not-armed field plus an explicit
`readyTimeoutFire` operation.
-/

set_option maxHeartbeats 1000000

namespace WH

/-- JavaScript-style primitive values carried in messages and error-object
properties. -/
inductive JVal where
  | undef
  | jstr (s : String)
  | jnum (n : Int)
  | jbool (b : Bool)
  deriving DecidableEq

/-- A decoded JavaScript `Error` object, modelled as its property map in
insertion order (`name`, `message`, `stack`, plus any copied properties). -/
abbrev JsError := List (String × JVal)

/-- Property read, `obj[k]`: the first entry with key `k`. -/
def getProp (m : JsError) (k : String) : Option JVal :=
  (m.find? (fun p => p.1 == k)).map (fun p => p.2)

/-- Property write, `obj[k] = v`: overwrite in place when the key exists,
otherwise append (JavaScript own-property assignment). -/
def setProp (m : JsError) (k : String) (v : JVal) : JsError :=
  if m.any (fun p => p.1 == k) then
    m.map (fun p => if p.1 == k then (k, v) else p)
  else
    m ++ [(k, v)]

/-- Result of `new Error(msg)`: an error object whose `name` is `"Error"`,
whose `message` is `msg`, and with some `stack` string. -/
def mkError (msg : String) : JsError :=
  [("name", JVal.jstr "Error"), ("message", JVal.jstr msg),
   ("stack", JVal.jstr "Error at WorkerHandler")]

/-- A serialized error descriptor as it arrives in a response's `error`
field: either a plain string or an object (property list). -/
inductive ErrDescriptor where
  | dstr (s : String)
  | dobj (props : List (String × JVal))
  deriving DecidableEq

/-- Source `objectToError` (src/WorkerHandler.js lines 213-225): a string
becomes `new Error(obj)`; an object becomes `new Error("")` with every key of
`obj` assigned onto it in `Object.keys` order. -/
def objectToError : ErrDescriptor → JsError
  | ErrDescriptor.dstr s => mkError s
  | ErrDescriptor.dobj props =>
      props.foldl (fun temp p => setProp temp p.1 p.2) (mkError "")

/-- Execution substrate of the worker (child process, worker thread, or web
worker).  It determines which shutdown capabilities the transport exposes. -/
inductive Substrate where
  | childProcess
  | workerThread
  | webWorker
  deriving DecidableEq

/-- The transport object `this.worker` as far as the handler reads or writes
it: its substrate, its `ready` flag and its `killed` flag. -/
structure WorkerObj where
  substrate : Substrate
  ready : Bool
  killed : Bool
  deriving DecidableEq

/-- One in-flight task record `{id, resolver, options, started}`; the
resolver is tracked through the `settlements` log, and of `options` only the
presence of a callable `options.on` matters to the handler. -/
structure TaskRec where
  id : Nat
  hasOn : Bool
  started : Nat
  deriving DecidableEq

/-- A settlement of a task's resolver. -/
inductive Settle where
  | resolvedV (v : JVal)
  | rejectedE (e : JsError)
  deriving DecidableEq

/-- Outbound transport message: a JSON-RPC request `{id, method, params}`
(params carried opaquely) or the literal terminate string. -/
inductive OutMsg where
  | request (id : Nat) (method : String)
  | terminateSignal
  deriving DecidableEq

/-- Substrate shutdown effects performed by `terminate`/`cleanup`. -/
inductive TermAction where
  | killWorker
  | webTerminate
  | removedMessageListeners
  deriving DecidableEq

/-- Inbound transport message: the literal `"ready"` string, or a response
object `{id, isEvent?, payload?, error?, result?}`. -/
inductive InMsg where
  | readyStr
  | resp (id : Nat) (isEvent : Bool) (payload : JVal)
         (error : Option ErrDescriptor) (result : JVal)
  deriving DecidableEq

/-- The whole mutable state of one WorkerHandler, together with append-only
logs of its outward effects. -/
structure HState where
  script : String
  spawnargs : String
  spawnfile : String
  stdoutAttr : String
  stderrAttr : String
  worker : Option WorkerObj
  concurrency : Nat
  requestCount : Nat
  responseCount : Nat
  maxExec : Nat
  totalTime : Nat
  minTime : Option Nat          -- `none` models the initial `Infinity`
  maxTime : Nat
  lastTime : Nat
  markNotReadyAfterExec : Bool
  readyTimeoutDuration : Option Nat
  initReadyTimeoutDuration : Option Nat
  readyTimeoutTimer : Option Nat
  exitCbPresent : Bool          -- the captured `_onWorkerExit` is non-null
  exitCalls : Nat               -- invocations of the user's onWorkerExit
  exitWrapperCalls : Nat        -- invocations of the wrapper itself
  readyCbPresent : Bool         -- the captured `_onWorkerReady` is non-null
  readyCalls : Nat              -- invocations of the user's onWorkerReady
  requestQueue : List OutMsg
  processing : List (Nat × TaskRec)
  terminating : Bool
  terminated : Bool
  terminationHandler : Bool
  lastId : Nat
  childExitTimerArmed : Bool
  onceExitRegistered : Bool
  settlements : List (Nat × Settle)
  eventLog : List (Nat × JVal)  -- calls made to `task.options.on(payload)`
  sent : List OutMsg            -- messages handed to `worker.send`
  actions : List TermAction
  thrown : List JsError
  termHandlerCalls : List (Option JsError)
  deriving DecidableEq

/-- The wrapper around `options.onWorkerExit` (lines 260-266): it invokes the
captured callback if still present and then unconditionally nulls it. -/
def fireOnWorkerExit (h : HState) : HState :=
  { h with
    exitWrapperCalls := h.exitWrapperCalls + 1
    exitCalls := if h.exitCbPresent then h.exitCalls + 1 else h.exitCalls
    exitCbPresent := false }

/-- The wrapper around `options.onWorkerReady` (lines 268-273): it invokes the
captured callback if present; unlike the exit wrapper it never nulls it. -/
def fireOnWorkerReady (h : HState) : HState :=
  if h.readyCbPresent then { h with readyCalls := h.readyCalls + 1 } else h

/-- Source `clearReadyTimeout` (lines 284-290). -/
def clearReadyTimeout (h : HState) : HState :=
  { h with readyTimeoutTimer := none }

/-- Source `setReadyTimeout` (lines 275-283): clear any armed timer; a falsy
duration (absent or 0) arms nothing. -/
def setReadyTimeout (h : HState) (d : Option Nat) : HState :=
  let h1 := clearReadyTimeout h
  match d with
  | none => h1
  | some dd => if dd = 0 then h1 else { h1 with readyTimeoutTimer := some dd }

/-- Read of `this.worker.ready`, guarded for the dropped-transport case. -/
def workerIsReady (h : HState) : Bool :=
  match h.worker with
  | some w => w.ready
  | none => false

/-- Assignment `me.worker.ready = b`. -/
def setWorkerReady (h : HState) (b : Bool) : HState :=
  { h with worker := h.worker.map (fun w => { w with ready := b }) }

/-- Source `busy` (lines 497-499): `Object.keys(this.processing).length >=
this.concurrency`. -/
def busy (h : HState) : Bool :=
  h.concurrency ≤ h.processing.length

/-- Source `available` (lines 505-514). -/
def available (h : HState) : Bool :=
  h.worker.isSome && !h.terminated && !h.terminating && workerIsReady h &&
    (h.maxExec == 0 || h.requestCount < h.maxExec) && !(busy h)

/-- Lookup `me.processing[id]`. -/
def lookupTask (h : HState) (id : Nat) : Option TaskRec :=
  (h.processing.find? (fun p => p.1 == id)).map (fun p => p.2)

/-- Deletion `delete me.processing[id]`. -/
def removeTask (l : List (Nat × TaskRec)) (id : Nat) : List (Nat × TaskRec) :=
  l.filter (fun p => p.1 != id)

/-- Reject every in-flight task with the same error and clear the table
(the body of `onError` lines 375-380 and of the forced branch of `terminate`
lines 528-534).  `for (var id in me.processing)` visits the integer keys in
ascending order, which is the list order here because ids are allocated
monotonically. -/
def rejectAll (h : HState) (e : JsError) : HState :=
  { h with
    settlements := h.settlements ++ h.processing.map (fun p => (p.1, Settle.rejectedE e))
    processing := [] }

/-- Source `onError` (lines 372-382): mark terminated, reject all in-flight tasks,
clear the table, fire the onWorkerExit wrapper. -/
def onError (h : HState) (e : JsError) : HState :=
  fireOnWorkerExit (rejectAll { h with terminated := true } e)

/-- Source `dispatchQueuedRequests` (lines 385-389): `splice(0)` the queue and
`send` each element in order. -/
def dispatchQueuedRequests (h : HState) : HState :=
  { h with sent := h.sent ++ h.requestQueue, requestQueue := [] }

/-- The guard of the auto-retirement branch at line 347,
`if (this.maxExec && this.responseCount >= this.maxExec)`. Inside
`worker.on("message", function (response) {...})` the keyword `this` is bound
to the transport object (the event emitter), not to the handler `me`; the
transport has no `maxExec` or `responseCount` property, so `this.maxExec`
evaluates to `undefined` and the conjunction is falsy.  Transcribed
faithfully, the guard is constantly false.  (On the browser substrate the
listener is even invoked with `this === undefined` under strict mode, which
would throw — either way the branch body never runs.) -/
def maxExecDeadGuard : Bool := false

/-- Stats update of the terminal-response branch (lines 326-335). -/
def updateStats (h : HState) (timeSpent : Nat) : HState :=
  let h1 := { h with lastTime := timeSpent }
  let h2 := if h1.maxTime < timeSpent then { h1 with maxTime := timeSpent } else h1
  match h2.minTime with
  | none => { h2 with minTime := some timeSpent }
  | some m => if timeSpent < m then { h2 with minTime := some timeSpent } else h2

/-- Source `cleanup` inside `terminate` (lines 542-555): mark terminated, remove the
`"message"` listeners when the transport has `removeAllListeners` (child
process and worker thread — both are event emitters; a web worker is not),
drop the transport reference, clear `terminating`, then invoke the stashed
`terminationHandler(err, me)` if any, else rethrow a non-null `err`. -/
def cleanup (h : HState) (err : Option JsError) : HState :=
  let hasRemove : Bool :=
    match h.worker with
    | some w => w.substrate != Substrate.webWorker
    | none => false
  let h1 := { h with
    terminated := true
    actions := if hasRemove then h.actions ++ [TermAction.removedMessageListeners] else h.actions
    worker := none
    terminating := false }
  if h1.terminationHandler then
    { h1 with termHandlerCalls := h1.termHandlerCalls ++ [err] }
  else
    match err with
    | some e => { h1 with thrown := h1.thrown ++ [e] }
    | none => h1

/-- Source `terminate(force, callback)` (lines 524-603).  The child-process
branch arms the 1000 ms force-kill fallback timer, registers a once-"exit"
cleanup listener and sends (or queues) the terminate string, deferring
cleanup to the exit event; the worker-thread branch kills synchronously and
cleans up; the web-worker branch calls `terminate()` and cleans up.  When
`busy()` the handler only records `terminating = true`. -/
def terminate (h : HState) (force : Bool) (cb : Bool) : HState :=
  let h1 := clearReadyTimeout h
  let h2 := if force then rejectAll h1 (mkError "Worker terminated") else h1
  let h3 := if cb then { h2 with terminationHandler := true } else h2
  if busy h3 then
    { h3 with terminating := true }
  else
    match h3.worker with
    | none => cleanup h3 none
    | some w =>
      match w.substrate with
      | Substrate.childProcess =>
          if w.killed then cleanup h3 (some (mkError "worker already killed!"))
          else
            let h4 := { h3 with childExitTimerArmed := true, onceExitRegistered := true }
            if w.ready then { h4 with sent := h4.sent ++ [OutMsg.terminateSignal] }
            else { h4 with requestQueue := h4.requestQueue ++ [OutMsg.terminateSignal] }
      | Substrate.workerThread =>
          if w.killed then cleanup h3 (some (mkError "worker already killed!"))
          else
            cleanup { h3 with
              actions := h3.actions ++ [TermAction.killWorker]
              worker := some { w with killed := true } } none
      | Substrate.webWorker =>
          cleanup { h3 with
            actions := h3.actions ++ [TermAction.webTerminate]
            worker := some { w with killed := true } } none

/-- The `"message"` listener (lines 306-367). -/
def handleMessage (h : HState) (now : Nat) (m : InMsg) : HState :=
  if h.terminated then h
  else
    match m with
    | InMsg.readyStr =>
        dispatchQueuedRequests (fireOnWorkerReady (setWorkerReady (clearReadyTimeout h) true))
    | InMsg.resp id isEvent payload error result =>
        match lookupTask h id with
        | none => h
        | some task =>
          if isEvent then
            if task.hasOn then { h with eventLog := h.eventLog ++ [(id, payload)] } else h
          else
            let timeSpent := now - task.started
            let h1 := updateStats h timeSpent
            let h2 := { h1 with responseCount := h1.responseCount + 1 }
            let h3 :=
              if h2.markNotReadyAfterExec then
                setReadyTimeout (setWorkerReady h2 false) h2.readyTimeoutDuration
              else h2
            let h4 := { h3 with processing := removeTask h3.processing id }
            let h5 :=
              if maxExecDeadGuard then fireOnWorkerExit { h4 with terminating := true }
              else h4
            let h6 := if h5.terminating then terminate h5 false false else h5
            match error with
            | some d =>
                { h6 with settlements := h6.settlements ++ [(id, Settle.rejectedE (objectToError d))] }
            | none =>
                { h6 with settlements := h6.settlements ++ [(id, Settle.resolvedV result)] }

/-- Source `exec` (lines 434-491): allocate the id, insert the task record
and count the request first, then either reject (terminated), send (ready),
or queue the request.  The catch attached to the returned promise (forced
termination on cancellation or timeout of the caller's future) is
promise-side behaviour outside this state transition. -/
def exec (h : HState) (now : Nat) (method : String) (hasOn : Bool) : HState × Nat :=
  let id := h.lastId + 1
  let h1 := { h with
    lastId := id
    processing := h.processing ++ [(id, ({ id := id, hasOn := hasOn, started := now } : TaskRec))]
    requestCount := h.requestCount + 1 }
  let h2 :=
    if h1.terminated then
      { h1 with settlements := h1.settlements ++ [(id, Settle.rejectedE (mkError "Worker is terminated"))] }
    else if workerIsReady h1 then
      { h1 with sent := h1.sent ++ [OutMsg.request id method] }
    else
      { h1 with requestQueue := h1.requestQueue ++ [OutMsg.request id method] }
  (h2, id)

/-- State part of `exec`. -/
def execS (h : HState) (now : Nat) (method : String) (hasOn : Bool) : HState :=
  (exec h now method hasOn).1

/-- The synthesized message of the `"exit"` listener (lines 394-407). -/
def mkExitMessage (exitCode signalCode : Int)
    (script spawnargs spawnfile stdoutAttr stderrAttr : String) : String :=
  "Workerpool Worker terminated Unexpectedly\n    exitCode: `" ++ toString exitCode ++
  "`\n    signalCode: `" ++ toString signalCode ++
  "`\n    workerpool.script: `" ++ script ++
  "`\n    spawnArgs: `" ++ spawnargs ++
  "`\n    spawnfile: `" ++ spawnfile ++
  "`\n    stdout: `" ++ stdoutAttr ++
  "`\n    stderr: `" ++ stderrAttr ++ "`\n"

/-- The `"exit"` listener registered at construction (lines 394-408),
followed by the once-"exit" listener that `terminate` registers on the
child-process path (lines 571-577), when that one is armed.  The constructor
listener runs first (registration order) and calls `onError` with the
synthesized message; the once listener cancels the fallback kill timer, marks
the transport killed and runs `cleanup`. -/
def exitListener (h : HState) (exitCode signalCode : Int) : HState :=
  let e := mkError (mkExitMessage exitCode signalCode h.script h.spawnargs
    h.spawnfile h.stdoutAttr h.stderrAttr)
  let h1 := onError h e
  if h1.onceExitRegistered then
    cleanup { h1 with
      childExitTimerArmed := false
      onceExitRegistered := false
      worker := h1.worker.map (fun w => { w with killed := true }) } none
  else h1

/-- A settled-or-not single-settlement future for `terminateAndNotify`.
`armedTimeout` is set only by calling the deferred's timeout variant;
`timeoutProp` is a plain data property named `timeout` sitting on the
promise object. -/
structure DeferredPromise where
  settled : Option Settle
  armedTimeout : Option Nat
  timeoutProp : Option Nat
  deriving DecidableEq

/-- Modelled from the spec: the Deferred module (`./Promise`) is not under
src/.  Spec §2 and §9: a Deferred is "a single-settlement promise-like handle
with cancellation and timeout variants"; invoking the timeout variant with a
deadline makes the future reject once the deadline expires unless it settled
first.  Invoking it is modelled as arming `armedTimeout`. -/
def DeferredPromise.timeoutVariant (p : DeferredPromise) (t : Nat) : DeferredPromise :=
  { p with armedTimeout := some t }

/-- Modelled from the spec (see `DeferredPromise.timeoutVariant`): a deferred
rejects when its armed deadline expires iff a deadline was armed and it is
not yet settled. -/
def rejectsOnExpiry (p : DeferredPromise) : Bool :=
  p.armedTimeout.isSome && p.settled.isNone

/-- Source `terminateAndNotify` (lines 615-628).  The line
`resolver.promise.timeout = timeout` is a property assignment: it installs
the number as an own `timeout` property of the promise object (shadowing the
prototype's timeout variant); it does not invoke the timeout variant, so no
deadline is armed.  The callback handed to `terminate` settles the resolver;
settlements performed synchronously by `terminate` are reflected from the
`termHandlerCalls` log. -/
def terminateAndNotify (h : HState) (force : Bool) (timeout : Nat) :
    HState × DeferredPromise :=
  let p0 : DeferredPromise := { settled := none, armedTimeout := none, timeoutProp := none }
  let p1 := if timeout ≠ 0 then { p0 with timeoutProp := some timeout } else p0
  let h1 := terminate h force true
  let p2 : DeferredPromise :=
    match h1.termHandlerCalls.drop h.termHandlerCalls.length with
    | [] => p1
    | some e :: _ => { p1 with settled := some (Settle.rejectedE e) }
    | none :: _ => { p1 with settled := some (Settle.resolvedV JVal.undef) }
  (h1, p2)

/-- Constructor options, as consumed by the `WorkerHandler` constructor. -/
structure HOptions where
  script : Option String
  substrate : Substrate
  concurrency : Nat                 -- raw value; 0 (falsy) falls back to 1
  maxExec : Nat                     -- `options.maxExec || 0`
  markNotReadyAfterExec : Bool
  readyTimeoutDuration : Option Nat
  initReadyTimeoutDuration : Option (Option Nat)  -- outer `none` models null/undefined
  hasOnWorkerExit : Bool
  hasOnWorkerReady : Bool
  spawnargs : String
  spawnfile : String
  stdoutAttr : String
  stderrAttr : String
  deriving DecidableEq

/-- The `WorkerHandler` constructor (lines 235-416): initialise counters and
stats, capture the callbacks, mark ready and fire `onWorkerReady` when no
script was supplied (the default worker performs no handshake), and finally
arm the initial readiness timer with `initReadyTimeoutDuration` (defaulting
to `readyTimeoutDuration` when null). -/
def initHandler (o : HOptions) : HState :=
  let resolvedInit : Option Nat :=
    match o.initReadyTimeoutDuration with
    | none => o.readyTimeoutDuration
    | some v => v
  let h0 : HState := {
    script := o.script.getD "worker.js"
    spawnargs := o.spawnargs
    spawnfile := o.spawnfile
    stdoutAttr := o.stdoutAttr
    stderrAttr := o.stderrAttr
    worker := some { substrate := o.substrate, ready := false, killed := false }
    concurrency := if o.concurrency != 0 then o.concurrency else 1
    requestCount := 0
    responseCount := 0
    maxExec := o.maxExec
    totalTime := 0
    minTime := none
    maxTime := 0
    lastTime := 0
    markNotReadyAfterExec := o.markNotReadyAfterExec
    readyTimeoutDuration := o.readyTimeoutDuration
    initReadyTimeoutDuration := resolvedInit
    readyTimeoutTimer := none
    exitCbPresent := o.hasOnWorkerExit
    exitCalls := 0
    exitWrapperCalls := 0
    readyCbPresent := o.hasOnWorkerReady
    readyCalls := 0
    requestQueue := []
    processing := []
    terminating := false
    terminated := false
    terminationHandler := false
    lastId := 0
    childExitTimerArmed := false
    onceExitRegistered := false
    settlements := []
    eventLog := []
    sent := []
    actions := []
    thrown := []
    termHandlerCalls := [] }
  let h1 := if o.script.isNone then fireOnWorkerReady (setWorkerReady h0 true) else h0
  setReadyTimeout h1 h1.initReadyTimeoutDuration

/-- One external event driving the handler: an inbound transport message, a
caller invocation, a timer fire, or a transport error/exit event. -/
inductive HOp where
  | message (now : Nat) (m : InMsg)
  | execCall (now : Nat) (method : String) (hasOn : Bool)
  | terminateCall (force : Bool) (cb : Bool)
  | terminateAndNotifyCall (force : Bool) (timeout : Nat)
  | readyTimeoutFire
  | errorEvent (e : JsError)
  | exitEvent (exitCode signalCode : Int)
  | statsResetFire
  deriving DecidableEq

/-- Dispatch of one external event to the corresponding handler operation.
`readyTimeoutFire` runs the armed timer's body `me.terminate()` — no
arguments, hence `force = false` and no callback; `statsResetFire` is the
periodic stats-reset timer (lines 293-296). -/
def step (h : HState) (op : HOp) : HState :=
  match op with
  | HOp.message now m => handleMessage h now m
  | HOp.execCall now method hasOn => execS h now method hasOn
  | HOp.terminateCall force cb => terminate h force cb
  | HOp.terminateAndNotifyCall force timeout => (terminateAndNotify h force timeout).1
  | HOp.readyTimeoutFire =>
      if h.readyTimeoutTimer.isSome then terminate h false false else h
  | HOp.errorEvent e => onError h e
  | HOp.exitEvent ec sc => exitListener h ec sc
  | HOp.statsResetFire => { h with minTime := none, maxTime := 0 }

end WH

namespace WH

/-! Concrete handler configurations used by counterexamples and witnesses. -/

/-- A baseline option record: default worker (no script, so the handler is
ready at once), worker-thread substrate, defaults everywhere else. -/
def optBase : HOptions where
  script := none
  substrate := Substrate.workerThread
  concurrency := 0
  maxExec := 0
  markNotReadyAfterExec := false
  readyTimeoutDuration := none
  initReadyTimeoutDuration := none
  hasOnWorkerExit := true
  hasOnWorkerReady := false
  spawnargs := "args"
  spawnfile := "file"
  stdoutAttr := "out"
  stderrAttr := "err"

/-- The spec's auto-retirement condition, stated in the spec's own words:
`maxExec > 0 ∧ responseCount ≥ maxExec`. -/
def specMaxExecCondition (maxExec responseCount : Nat) : Prop :=
  0 < maxExec ∧ maxExec ≤ responseCount

/-- A handler with `maxExec = 1` that received one `exec` and then the first
terminal response. -/
def c1State : HState :=
  handleMessage (execS (initHandler { optBase with maxExec := 1 }) 0 "echo" false) 5
    (InMsg.resp 1 false JVal.undef none (JVal.jnum 42))

/-- C1: with `maxExec = 1`, after the 1st terminal response is processed the
spec's condition `maxExec > 0 ∧ responseCount ≥ maxExec` holds, yet the
handler does not transition to `terminating` and `onWorkerExit` is not fired:
the guard at line 347 reads `this.maxExec` where `this` is the transport
object, so the auto-retirement branch never runs. -/
theorem c1_maxexec_branch_dead :
    c1State.maxExec = 1 ∧ c1State.responseCount = 1 ∧
    specMaxExecCondition c1State.maxExec c1State.responseCount ∧
    c1State.settlements = [(1, Settle.resolvedV (JVal.jnum 42))] ∧
    c1State.processing = [] ∧
    c1State.terminating = false ∧
    c1State.exitWrapperCalls = 0 ∧ c1State.exitCalls = 0 := by
  simp only [specMaxExecCondition]
  decide

/-- Helper: `terminate` with `force = false` on a busy handler only clears
the ready timer, stashes the callback and sets `terminating`. -/
theorem terminate_graceful_busy (h : HState) (cb : Bool) (hb : busy h = true) :
    terminate h false cb =
      { h with
        readyTimeoutTimer := none
        terminationHandler := (cb || h.terminationHandler)
        terminating := true } := by
  have hb1 : busy { h with readyTimeoutTimer := none } = true := hb
  have hb2 : busy { h with readyTimeoutTimer := none, terminationHandler := true } = true := hb
  cases cb <;>
    simp [terminate, clearReadyTimeout, hb1, hb2]

/-- A ready worker-thread handler with `concurrency = 2` and a single
in-flight task: the in-flight table is non-empty but `busy()` is false. -/
def c2Start : HState :=
  execS (initHandler { optBase with concurrency := 2, hasOnWorkerExit := false }) 0 "task" false

/-- C2 counterexample: calling `terminate(force = false)` on `c2Start`
performs the substrate shutdown at once — the worker is killed, the transport
reference is dropped and the handler becomes `terminated` — even though the
in-flight table is non-empty, refuting the claim that a non-empty in-flight
table makes `terminate(false)` merely set `terminating` and return. -/
theorem c2_counterexample :
    c2Start.processing ≠ [] ∧
    (terminate c2Start false false).terminating = false ∧
    (terminate c2Start false false).terminated = true ∧
    (terminate c2Start false false).worker = none ∧
    TermAction.killWorker ∈ (terminate c2Start false false).actions := by
  decide

/-- C2 amended: for every call `terminate(force = false)`, if the handler is
busy (in-flight count at least `concurrency`) at the time of the call, the
handler only sets `terminating = true` (after clearing the ready timer and
stashing the callback) and returns without performing substrate shutdown: no
kill, no terminate signal sent, transport reference kept, tasks and
settlements untouched.  With `concurrency > 1`, a non-empty but
below-concurrency table does not defer shutdown. -/
theorem c2_graceful_requires_busy (h : HState) (cb : Bool) (hb : busy h = true) :
    (terminate h false cb).terminating = true ∧
    (terminate h false cb).terminated = h.terminated ∧
    (terminate h false cb).worker = h.worker ∧
    (terminate h false cb).actions = h.actions ∧
    (terminate h false cb).sent = h.sent ∧
    (terminate h false cb).requestQueue = h.requestQueue ∧
    (terminate h false cb).processing = h.processing ∧
    (terminate h false cb).settlements = h.settlements ∧
    (terminate h false cb).readyTimeoutTimer = none := by
  rw [terminate_graceful_busy h cb hb]
  exact ⟨rfl, rfl, rfl, rfl, rfl, rfl, rfl, rfl, rfl⟩

/-- A busy handler: default concurrency 1 and one in-flight task (queued,
since a script was supplied and no `"ready"` arrived yet), ready timer armed. -/
def c4Start : HState :=
  execS (initHandler { optBase with script := some "w.js", readyTimeoutDuration := some 100 })
    0 "slow" false

/-- C2 witness: on the busy handler `c4Start`, graceful terminate keeps the
in-flight table and performs no shutdown action. -/
theorem c2_graceful_requires_busy_w :
    (terminate c4Start false false).terminating = true ∧
    (terminate c4Start false false).processing = c4Start.processing :=
  ⟨(c2_graceful_requires_busy c4Start false (by decide)).1,
   (c2_graceful_requires_busy c4Start false (by decide)).2.2.2.2.2.2.1⟩

/-- A terminated handler with an empty in-flight table (fresh handler,
gracefully terminated with no tasks). -/
def c3Term : HState := terminate (initHandler optBase) false false

/-- C3 counterexample: `c3Term` is terminated with an empty in-flight table,
yet after one `exec` call the table is non-empty — `exec` inserts the task
record before checking `terminated`, so the invariant
`terminated ⇒ in-flight table empty` is not preserved by `exec`. -/
theorem c3_counterexample :
    c3Term.terminated = true ∧ c3Term.processing = [] ∧
    (execS c3Term 7 "m" false).processing ≠ [] := by
  decide

/-- C3 amended: `exec` on a terminated handler immediately rejects the
returned future with the `WorkerTerminated` error, but the freshly inserted
task record stays in the in-flight table, which is therefore non-empty: the
invariant `terminated ⇒ in-flight table empty` is established by
error/exit handling (`onError` clears the table while setting `terminated`)
but is not preserved by `exec` on a terminated handler. -/
theorem c3_exec_breaks_invariant (h : HState) (now : Nat) (method : String)
    (hasOn : Bool) (e : JsError) (ht : h.terminated = true) :
    (execS h now method hasOn).settlements
      = h.settlements ++ [(h.lastId + 1, Settle.rejectedE (mkError "Worker is terminated"))] ∧
    (execS h now method hasOn).processing
      = h.processing ++ [(h.lastId + 1, ({ id := h.lastId + 1, hasOn := hasOn, started := now } : TaskRec))] ∧
    (execS h now method hasOn).processing ≠ [] ∧
    (onError h e).terminated = true ∧ (onError h e).processing = [] := by
  refine ⟨?_, ?_, ?_, rfl, rfl⟩ <;>
    simp [execS, exec, ht, onError, fireOnWorkerExit, rejectAll]

/-- C3 witness: the amended statement evaluated on the concrete terminated
handler `c3Term`. -/
theorem c3_exec_breaks_invariant_w :
    (execS c3Term 7 "m" false).settlements
      = c3Term.settlements ++ [(c3Term.lastId + 1, Settle.rejectedE (mkError "Worker is terminated"))] :=
  (c3_exec_breaks_invariant c3Term 7 "m" false [] (by decide)).1

/-- C4 counterexample: on `c4Start` (one in-flight task, ready timer armed at
100 ms) the timer expiry does not forcibly terminate the handler: no task is
rejected, no shutdown action is performed, the handler is not terminated —
it merely enters `terminating`, because the timer body calls `me.terminate()`
with `force` absent (false). -/
theorem c4_counterexample :
    c4Start.readyTimeoutTimer = some 100 ∧
    c4Start.processing ≠ [] ∧
    (step c4Start HOp.readyTimeoutFire).settlements = [] ∧
    (step c4Start HOp.readyTimeoutFire).processing = c4Start.processing ∧
    (step c4Start HOp.readyTimeoutFire).terminated = false ∧
    (step c4Start HOp.readyTimeoutFire).actions = [] ∧
    (step c4Start HOp.readyTimeoutFire).terminating = true := by
  decide

/-- C4 amended: when the readiness timer expires the handler calls
`terminate()` with `force = false` — a graceful termination: in-flight tasks
are not rejected, and when the handler is busy the expiry only sets
`terminating = true` and clears the timer; the worker is shut down
immediately only if the handler is not busy. -/
theorem c4_ready_timeout_graceful (h : HState)
    (ht : h.readyTimeoutTimer.isSome = true) (hb : busy h = true) :
    (step h HOp.readyTimeoutFire).terminating = true ∧
    (step h HOp.readyTimeoutFire).processing = h.processing ∧
    (step h HOp.readyTimeoutFire).settlements = h.settlements ∧
    (step h HOp.readyTimeoutFire).actions = h.actions ∧
    (step h HOp.readyTimeoutFire).worker = h.worker ∧
    (step h HOp.readyTimeoutFire).terminated = h.terminated ∧
    (step h HOp.readyTimeoutFire).readyTimeoutTimer = none := by
  have hstep : step h HOp.readyTimeoutFire = terminate h false false := by
    simp [step, ht]
  rw [hstep, terminate_graceful_busy h false hb]
  exact ⟨rfl, rfl, rfl, rfl, rfl, rfl, rfl⟩

/-- C4 witness: the amended statement evaluated on `c4Start`. -/
theorem c4_ready_timeout_graceful_w :
    (step c4Start HOp.readyTimeoutFire).terminating = true ∧
    (step c4Start HOp.readyTimeoutFire).settlements = c4Start.settlements :=
  ⟨(c4_ready_timeout_graceful c4Start (by decide) (by decide)).1,
   (c4_ready_timeout_graceful c4Start (by decide) (by decide)).2.2.1⟩

end WH

namespace WH

/-- C5: for every `terminateAndNotify(force, timeout)` with a non-zero
timeout, the returned future has no armed deadline: the source line
`resolver.promise.timeout = timeout` merely installs the number as a data
property on the promise (shadowing the prototype's timeout variant), so the
future cannot reject on timeout expiry — although invoking the deferred's
timeout variant with the same value would arm the deadline.  This contradicts
the function's own doc comment and the spec. -/
theorem c5_timeout_not_armed (h : HState) (force : Bool) (t : Nat) (ht : t ≠ 0) :
    (terminateAndNotify h force t).2.armedTimeout = none ∧
    rejectsOnExpiry (terminateAndNotify h force t).2 = false ∧
    (terminateAndNotify h force t).2.timeoutProp = some t ∧
    (((terminateAndNotify h force t).2).timeoutVariant t).armedTimeout = some t := by
  have harm : (terminateAndNotify h force t).2.armedTimeout = none := by
    simp only [terminateAndNotify]
    rcases hd : (terminate h force true).termHandlerCalls.drop h.termHandlerCalls.length
      with _ | ⟨e, rest⟩
    · simp [hd, ht]
    · cases e <;> simp [hd, ht]
  refine ⟨harm, ?_, ?_, rfl⟩
  · simp [rejectsOnExpiry, harm]
  · simp only [terminateAndNotify]
    rcases hd : (terminate h force true).termHandlerCalls.drop h.termHandlerCalls.length
      with _ | ⟨e, rest⟩
    · simp [hd, ht]
    · cases e <;> simp [hd, ht]

/-- C5 witness: concrete call with timeout 100 on a fresh handler. -/
theorem c5_timeout_not_armed_w :
    (terminateAndNotify (initHandler optBase) false 100).2.armedTimeout = none ∧
    rejectsOnExpiry (terminateAndNotify (initHandler optBase) false 100).2 = false :=
  ⟨(c5_timeout_not_armed (initHandler optBase) false 100 (by decide)).1,
   (c5_timeout_not_armed (initHandler optBase) false 100 (by decide)).2.1⟩

/-- A not-yet-ready handler whose options supplied an `onWorkerReady`
callback. -/
def c6Start : HState :=
  initHandler { optBase with script := some "w.js", hasOnWorkerReady := true }

/-- C6 counterexample: two `"ready"` signals processed by the same handler
invoke the supplied `options.onWorkerReady` callback twice — the ready
wrapper never nulls its captured callback — refuting the claim that
`onWorkerReady` is invoked at most once. -/
theorem c6_counterexample :
    (step (step c6Start (HOp.message 0 InMsg.readyStr))
      (HOp.message 1 InMsg.readyStr)).readyCalls = 2 := by
  decide

/-- Invariant driving the single-shot property of `onWorkerExit`: the
callback has been invoked at most once, and not at all while it is still
captured. -/
def ExitInv (h : HState) : Prop :=
  h.exitCalls ≤ 1 ∧ (h.exitCbPresent = true → h.exitCalls = 0)

theorem ExitInv_of_fields (h h' : HState) (hI : ExitInv h)
    (e1 : h'.exitCalls = h.exitCalls) (e2 : h'.exitCbPresent = h.exitCbPresent) :
    ExitInv h' := by
  unfold ExitInv at *
  rw [e1, e2]
  exact hI

theorem cleanup_exitFields (h : HState) (err : Option JsError) :
    (cleanup h err).exitCalls = h.exitCalls ∧
    (cleanup h err).exitCbPresent = h.exitCbPresent := by
  simp only [cleanup]
  repeat' split
  all_goals exact ⟨rfl, rfl⟩

theorem terminate_exitFields (h : HState) (f cb : Bool) :
    (terminate h f cb).exitCalls = h.exitCalls ∧
    (terminate h f cb).exitCbPresent = h.exitCbPresent := by
  simp only [terminate, clearReadyTimeout, rejectAll]
  repeat' split
  all_goals simp_all [cleanup_exitFields]

theorem execS_exitFields (h : HState) (now : Nat) (method : String) (hasOn : Bool) :
    (execS h now method hasOn).exitCalls = h.exitCalls ∧
    (execS h now method hasOn).exitCbPresent = h.exitCbPresent := by
  simp only [execS, exec]
  repeat' split
  all_goals exact ⟨rfl, rfl⟩

theorem updateStats_exitFields (h : HState) (ts : Nat) :
    (updateStats h ts).exitCalls = h.exitCalls ∧
    (updateStats h ts).exitCbPresent = h.exitCbPresent := by
  simp only [updateStats]
  repeat' split
  all_goals exact ⟨rfl, rfl⟩

theorem setReadyTimeout_exitFields (h : HState) (d : Option Nat) :
    (setReadyTimeout h d).exitCalls = h.exitCalls ∧
    (setReadyTimeout h d).exitCbPresent = h.exitCbPresent := by
  simp only [setReadyTimeout, clearReadyTimeout]
  repeat' split
  all_goals exact ⟨rfl, rfl⟩

theorem fireOnWorkerReady_exitFields (h : HState) :
    (fireOnWorkerReady h).exitCalls = h.exitCalls ∧
    (fireOnWorkerReady h).exitCbPresent = h.exitCbPresent := by
  simp only [fireOnWorkerReady]
  split
  all_goals exact ⟨rfl, rfl⟩

theorem handleMessage_exitFields (h : HState) (now : Nat) (m : InMsg) :
    (handleMessage h now m).exitCalls = h.exitCalls ∧
    (handleMessage h now m).exitCbPresent = h.exitCbPresent := by
  simp only [handleMessage, dispatchQueuedRequests]
  repeat' split
  all_goals
    simp_all [updateStats_exitFields, setReadyTimeout_exitFields, fireOnWorkerReady_exitFields,
      terminate_exitFields, fireOnWorkerExit, setWorkerReady, clearReadyTimeout,
      maxExecDeadGuard]

theorem ExitInv_fire (h : HState) (hI : ExitInv h) : ExitInv (fireOnWorkerExit h) := by
  obtain ⟨hle, hz⟩ := hI
  unfold ExitInv fireOnWorkerExit
  by_cases hp : h.exitCbPresent = true
  · simp [hp, hz hp]
  · simp_all

theorem step_ExitInv (h : HState) (op : HOp) (hI : ExitInv h) : ExitInv (step h op) := by
  cases op with
  | message now m =>
      exact ExitInv_of_fields h _ hI (handleMessage_exitFields h now m).1
        (handleMessage_exitFields h now m).2
  | execCall now method hasOn =>
      exact ExitInv_of_fields h _ hI (execS_exitFields h now method hasOn).1
        (execS_exitFields h now method hasOn).2
  | terminateCall f cb =>
      exact ExitInv_of_fields h _ hI (terminate_exitFields h f cb).1
        (terminate_exitFields h f cb).2
  | terminateAndNotifyCall f t =>
      exact ExitInv_of_fields h _ hI (terminate_exitFields h f true).1
        (terminate_exitFields h f true).2
  | readyTimeoutFire =>
      show ExitInv (if h.readyTimeoutTimer.isSome then terminate h false false else h)
      split
      · exact ExitInv_of_fields h _ hI (terminate_exitFields h false false).1
          (terminate_exitFields h false false).2
      · exact hI
  | errorEvent e => exact ExitInv_fire _ hI
  | exitEvent ec sc =>
      show ExitInv (exitListener h ec sc)
      simp only [exitListener]
      split
      · exact ExitInv_of_fields (onError h _) _ (ExitInv_fire _ hI)
          (cleanup_exitFields _ _).1 (cleanup_exitFields _ _).2
      · exact ExitInv_fire _ hI
  | statsResetFire => exact ExitInv_of_fields h _ hI rfl rfl

theorem foldl_ExitInv (ops : List HOp) (h : HState) (hI : ExitInv h) :
    ExitInv (ops.foldl step h) := by
  induction ops generalizing h with
  | nil => exact hI
  | cons op rest ih => exact ih _ (step_ExitInv h op hI)

theorem initHandler_ExitInv (o : HOptions) : ExitInv (initHandler o) := by
  unfold ExitInv
  simp only [initHandler, setReadyTimeout, clearReadyTimeout, fireOnWorkerReady, setWorkerReady]
  repeat' split
  all_goals simp

/-- C6 amended: over a handler's whole lifetime — any sequence of handler
operations after construction — the supplied `options.onWorkerExit` callback
is invoked at most once (its wrapper nulls the captured callback after the
first call).  The `options.onWorkerReady` callback, however, is invoked once
per processed readiness signal and may therefore fire multiple times; only
`onWorkerExit` is single-shot. -/
theorem c6_exit_at_most_once (o : HOptions) (ops : List HOp) :
    (ops.foldl step (initHandler o)).exitCalls ≤ 1 :=
  (foldl_ExitInv ops (initHandler o) (initHandler_ExitInv o)).1

end WH

namespace WH

/-- Substring containment: `sub` occurs contiguously inside `s`. -/
def containsStr (s sub : String) : Prop :=
  ∃ a b, s = a ++ sub ++ b

theorem mkExitMessage_contains (ec sc : Int) (s1 s2 s3 s4 s5 : String) :
    containsStr (mkExitMessage ec sc s1 s2 s3 s4 s5) (toString ec) ∧
    containsStr (mkExitMessage ec sc s1 s2 s3 s4 s5) (toString sc) ∧
    containsStr (mkExitMessage ec sc s1 s2 s3 s4 s5) s1 ∧
    containsStr (mkExitMessage ec sc s1 s2 s3 s4 s5) s2 ∧
    containsStr (mkExitMessage ec sc s1 s2 s3 s4 s5) s3 ∧
    containsStr (mkExitMessage ec sc s1 s2 s3 s4 s5) s4 ∧
    containsStr (mkExitMessage ec sc s1 s2 s3 s4 s5) s5 := by
  unfold containsStr
  refine ⟨⟨"Workerpool Worker terminated Unexpectedly\n    exitCode: `",
      "`\n    signalCode: `" ++ toString sc ++ "`\n    workerpool.script: `" ++ s1 ++
      "`\n    spawnArgs: `" ++ s2 ++ "`\n    spawnfile: `" ++ s3 ++
      "`\n    stdout: `" ++ s4 ++ "`\n    stderr: `" ++ s5 ++ "`\n", ?_⟩,
    ⟨"Workerpool Worker terminated Unexpectedly\n    exitCode: `" ++ toString ec ++
      "`\n    signalCode: `",
      "`\n    workerpool.script: `" ++ s1 ++ "`\n    spawnArgs: `" ++ s2 ++
      "`\n    spawnfile: `" ++ s3 ++ "`\n    stdout: `" ++ s4 ++
      "`\n    stderr: `" ++ s5 ++ "`\n", ?_⟩,
    ⟨"Workerpool Worker terminated Unexpectedly\n    exitCode: `" ++ toString ec ++
      "`\n    signalCode: `" ++ toString sc ++ "`\n    workerpool.script: `",
      "`\n    spawnArgs: `" ++ s2 ++ "`\n    spawnfile: `" ++ s3 ++
      "`\n    stdout: `" ++ s4 ++ "`\n    stderr: `" ++ s5 ++ "`\n", ?_⟩,
    ⟨"Workerpool Worker terminated Unexpectedly\n    exitCode: `" ++ toString ec ++
      "`\n    signalCode: `" ++ toString sc ++ "`\n    workerpool.script: `" ++ s1 ++
      "`\n    spawnArgs: `",
      "`\n    spawnfile: `" ++ s3 ++ "`\n    stdout: `" ++ s4 ++
      "`\n    stderr: `" ++ s5 ++ "`\n", ?_⟩,
    ⟨"Workerpool Worker terminated Unexpectedly\n    exitCode: `" ++ toString ec ++
      "`\n    signalCode: `" ++ toString sc ++ "`\n    workerpool.script: `" ++ s1 ++
      "`\n    spawnArgs: `" ++ s2 ++ "`\n    spawnfile: `",
      "`\n    stdout: `" ++ s4 ++ "`\n    stderr: `" ++ s5 ++ "`\n", ?_⟩,
    ⟨"Workerpool Worker terminated Unexpectedly\n    exitCode: `" ++ toString ec ++
      "`\n    signalCode: `" ++ toString sc ++ "`\n    workerpool.script: `" ++ s1 ++
      "`\n    spawnArgs: `" ++ s2 ++ "`\n    spawnfile: `" ++ s3 ++ "`\n    stdout: `",
      "`\n    stderr: `" ++ s5 ++ "`\n", ?_⟩,
    ⟨"Workerpool Worker terminated Unexpectedly\n    exitCode: `" ++ toString ec ++
      "`\n    signalCode: `" ++ toString sc ++ "`\n    workerpool.script: `" ++ s1 ++
      "`\n    spawnArgs: `" ++ s2 ++ "`\n    spawnfile: `" ++ s3 ++
      "`\n    stdout: `" ++ s4 ++ "`\n    stderr: `",
      "`\n", ?_⟩⟩ <;>
    simp [mkExitMessage, String.append_assoc]

theorem cleanup_frameFields (X : HState) (err : Option JsError) :
    (cleanup X err).terminated = true ∧
    (cleanup X err).processing = X.processing ∧
    (cleanup X err).settlements = X.settlements ∧
    (cleanup X err).exitWrapperCalls = X.exitWrapperCalls := by
  simp only [cleanup]
  repeat' split
  all_goals exact ⟨rfl, rfl, rfl, rfl⟩

/-- C7: on a transport `"error"` event received by a non-terminated handler,
the handler sets `terminated`, rejects every in-flight task with one and the
same error, clears the table, and fires the `onWorkerExit` wrapper; on an
`"exit"` event it does the same with a synthesized error whose `message`
contains the exit code, the signal code, the script, and the transport
diagnostic attributes (`spawnargs`, `spawnfile`, `stdout`, `stderr`). -/
theorem c7_error_exit_handling (h : HState) (e : JsError) (ec sc : Int)
    (_hT : h.terminated = false) :
    ((step h (HOp.errorEvent e)).terminated = true ∧
     (step h (HOp.errorEvent e)).processing = [] ∧
     (step h (HOp.errorEvent e)).settlements
       = h.settlements ++ h.processing.map (fun p => (p.1, Settle.rejectedE e)) ∧
     (step h (HOp.errorEvent e)).exitWrapperCalls = h.exitWrapperCalls + 1) ∧
    ((step h (HOp.exitEvent ec sc)).terminated = true ∧
     (step h (HOp.exitEvent ec sc)).processing = [] ∧
     (step h (HOp.exitEvent ec sc)).settlements
       = h.settlements ++ h.processing.map (fun p =>
           (p.1, Settle.rejectedE (mkError (mkExitMessage ec sc h.script h.spawnargs
             h.spawnfile h.stdoutAttr h.stderrAttr)))) ∧
     (step h (HOp.exitEvent ec sc)).exitWrapperCalls = h.exitWrapperCalls + 1 ∧
     getProp (mkError (mkExitMessage ec sc h.script h.spawnargs h.spawnfile h.stdoutAttr
         h.stderrAttr)) "message"
       = some (JVal.jstr (mkExitMessage ec sc h.script h.spawnargs h.spawnfile
           h.stdoutAttr h.stderrAttr)) ∧
     containsStr (mkExitMessage ec sc h.script h.spawnargs h.spawnfile h.stdoutAttr
         h.stderrAttr) (toString ec) ∧
     containsStr (mkExitMessage ec sc h.script h.spawnargs h.spawnfile h.stdoutAttr
         h.stderrAttr) (toString sc) ∧
     containsStr (mkExitMessage ec sc h.script h.spawnargs h.spawnfile h.stdoutAttr
         h.stderrAttr) h.script ∧
     containsStr (mkExitMessage ec sc h.script h.spawnargs h.spawnfile h.stdoutAttr
         h.stderrAttr) h.spawnargs ∧
     containsStr (mkExitMessage ec sc h.script h.spawnargs h.spawnfile h.stdoutAttr
         h.stderrAttr) h.spawnfile ∧
     containsStr (mkExitMessage ec sc h.script h.spawnargs h.spawnfile h.stdoutAttr
         h.stderrAttr) h.stdoutAttr ∧
     containsStr (mkExitMessage ec sc h.script h.spawnargs h.spawnfile h.stdoutAttr
         h.stderrAttr) h.stderrAttr) := by
  obtain ⟨hc1, hc2, hc3, hc4, hc5, hc6, hc7⟩ :=
    mkExitMessage_contains ec sc h.script h.spawnargs h.spawnfile h.stdoutAttr h.stderrAttr
  have hset : (step h (HOp.exitEvent ec sc)).terminated = true ∧
      (step h (HOp.exitEvent ec sc)).processing = [] ∧
      (step h (HOp.exitEvent ec sc)).settlements
        = h.settlements ++ h.processing.map (fun p =>
            (p.1, Settle.rejectedE (mkError (mkExitMessage ec sc h.script h.spawnargs
              h.spawnfile h.stdoutAttr h.stderrAttr)))) ∧
      (step h (HOp.exitEvent ec sc)).exitWrapperCalls = h.exitWrapperCalls + 1 := by
    simp only [step, exitListener]
    split
    · exact ⟨(cleanup_frameFields _ _).1, (cleanup_frameFields _ _).2.1,
        (cleanup_frameFields _ _).2.2.1, (cleanup_frameFields _ _).2.2.2⟩
    · exact ⟨rfl, rfl, rfl, rfl⟩
  exact ⟨⟨rfl, rfl, rfl, rfl⟩,
    hset.1, hset.2.1, hset.2.2.1, hset.2.2.2, rfl, hc1, hc2, hc3, hc4, hc5, hc6, hc7⟩

/-- C7 witness: a handler with one in-flight task, hit by a transport error
and (separately) by an exit event. -/
theorem c7_error_exit_handling_w :
    (step (execS (initHandler optBase) 0 "t" false)
        (HOp.errorEvent (mkError "boom"))).terminated = true ∧
    (step (execS (initHandler optBase) 0 "t" false)
        (HOp.exitEvent 1 0)).processing = [] :=
  ⟨(c7_error_exit_handling (execS (initHandler optBase) 0 "t" false)
      (mkError "boom") 1 0 rfl).1.1,
   (c7_error_exit_handling (execS (initHandler optBase) 0 "t" false)
      (mkError "boom") 1 0 rfl).2.2.1⟩

end WH

namespace WH

/-- Fold of several `exec` calls (same clock, no `options.on`). -/
def execMany (h : HState) (now : Nat) (ms : List String) : HState :=
  ms.foldl (fun s m => execS s now m false) h

/-- The requests that a run of `exec` calls with methods `ms` produces when
the handler's last allocated id is `base`. -/
def pendingRequests (base : Nat) : List String → List OutMsg
  | [] => []
  | m :: ms => OutMsg.request (base + 1) m :: pendingRequests (base + 1) ms

theorem workerIsReady_congr (a b : HState) (e : a.worker = b.worker) :
    workerIsReady a = workerIsReady b := by
  simp [workerIsReady, e]

theorem execS_notReady_fields (h : HState) (now : Nat) (method : String)
    (hT : h.terminated = false) (hR : workerIsReady h = false) :
    (execS h now method false).terminated = false ∧
    (execS h now method false).worker = h.worker ∧
    (execS h now method false).sent = h.sent ∧
    (execS h now method false).lastId = h.lastId + 1 ∧
    (execS h now method false).requestQueue
      = h.requestQueue ++ [OutMsg.request (h.lastId + 1) method] := by
  rcases hw : h.worker with _ | w
  · simp [execS, exec, hT, workerIsReady, hw]
  · have hwr : w.ready = false := by simpa [workerIsReady, hw] using hR
    simp [execS, exec, hT, workerIsReady, hw, hwr]

theorem execMany_fields (ms : List String) (h : HState) (now : Nat)
    (hT : h.terminated = false) (hR : workerIsReady h = false) :
    (execMany h now ms).terminated = false ∧
    (execMany h now ms).worker = h.worker ∧
    (execMany h now ms).sent = h.sent ∧
    (execMany h now ms).requestQueue = h.requestQueue ++ pendingRequests h.lastId ms := by
  induction ms generalizing h with
  | nil => exact ⟨hT, rfl, rfl, by simp [execMany, pendingRequests]⟩
  | cons m rest ih =>
      obtain ⟨f1, f2, f3, f4, f5⟩ := execS_notReady_fields h now m hT hR
      have hR' : workerIsReady (execS h now m false) = false :=
        (workerIsReady_congr _ _ f2).trans hR
      obtain ⟨i1, i2, i3, i4⟩ := ih (execS h now m false) f1 hR'
      refine ⟨i1, i2.trans f2, i3.trans f3, ?_⟩
      show (execMany (execS h now m false) now rest).requestQueue = _
      rw [i4, f5, f4]
      simp [pendingRequests]

/-- C8: for every sequence of `exec` calls submitted to a non-terminated
handler whose worker is not yet ready, the request messages are queued (none
is sent), and when the `"ready"` signal is processed they are all delivered
to the transport in exactly the submission order (after anything already
queued), immediately and in the same step; afterwards the pending queue is
empty. -/
theorem c8_queue_flush (h : HState) (now now2 : Nat) (ms : List String)
    (hT : h.terminated = false) (hR : workerIsReady h = false) :
    (handleMessage (execMany h now ms) now2 InMsg.readyStr).sent
      = h.sent ++ h.requestQueue ++ pendingRequests h.lastId ms ∧
    (handleMessage (execMany h now ms) now2 InMsg.readyStr).requestQueue = [] := by
  obtain ⟨i1, i2, i3, i4⟩ := execMany_fields ms h now hT hR
  have hred : handleMessage (execMany h now ms) now2 InMsg.readyStr
      = dispatchQueuedRequests (fireOnWorkerReady
          (setWorkerReady (clearReadyTimeout (execMany h now ms)) true)) := by
    simp [handleMessage, i1]
  have hsame : ∀ X : HState,
      (dispatchQueuedRequests (fireOnWorkerReady
        (setWorkerReady (clearReadyTimeout X) true))).sent = X.sent ++ X.requestQueue ∧
      (dispatchQueuedRequests (fireOnWorkerReady
        (setWorkerReady (clearReadyTimeout X) true))).requestQueue = [] := by
    intro X
    simp only [dispatchQueuedRequests, fireOnWorkerReady, setWorkerReady, clearReadyTimeout]
    split <;> simp
  rw [hred]
  refine ⟨((hsame _).1).trans ?_, (hsame _).2⟩
  rw [i3, i4]
  simp [List.append_assoc]

/-- A not-yet-ready handler used as the C8 witness base. -/
def c8Start : HState := initHandler { optBase with script := some "w.js" }

/-- C8 witness: two requests queued before readiness are sent in submission
order with ids 1 and 2, and the queue is empty afterwards. -/
theorem c8_queue_flush_w :
    (handleMessage (execMany c8Start 0 ["a", "b"]) 1 InMsg.readyStr).sent
      = c8Start.sent ++ c8Start.requestQueue ++ pendingRequests c8Start.lastId ["a", "b"] ∧
    (handleMessage (execMany c8Start 0 ["a", "b"]) 1 InMsg.readyStr).requestQueue = [] :=
  c8_queue_flush c8Start 0 1 ["a", "b"] rfl rfl

end WH

namespace WH

theorem find_map_overwrite (m : JsError) (k : String) (v : JVal)
    (hany : m.any (fun p => p.1 == k) = true) :
    (m.map (fun p => if p.1 == k then (k, v) else p)).find? (fun p => p.1 == k)
      = some (k, v) := by
  induction m with
  | nil => simp at hany
  | cons q t ih =>
      rw [List.map_cons]
      by_cases hq : (q.1 == k) = true
      · rw [if_pos hq]
        exact List.find?_cons_of_pos _ (beq_self_eq_true k)
      · rw [if_neg hq]
        have hstep : (q :: t.map (fun p => if p.1 == k then (k, v) else p)).find?
            (fun p => p.1 == k)
            = (t.map (fun p => if p.1 == k then (k, v) else p)).find? (fun p => p.1 == k) :=
          List.find?_cons_of_neg _ hq
        rw [hstep]
        apply ih
        rcases List.any_eq_true.mp hany with ⟨x, hx, hpx⟩
        rcases List.mem_cons.mp hx with hxq | hxt
        · rw [hxq] at hpx
          exact absurd hpx hq
        · exact List.any_eq_true.mpr ⟨x, hxt, hpx⟩

theorem find_append_missing (m : JsError) (k : String) (v : JVal)
    (hany : m.any (fun p => p.1 == k) = false) :
    (m ++ [(k, v)]).find? (fun p => p.1 == k) = some (k, v) := by
  induction m with
  | nil =>
      exact List.find?_cons_of_pos _ (beq_self_eq_true k)
  | cons q t ih =>
      rw [List.any_cons] at hany
      obtain ⟨h1, h2⟩ := Bool.or_eq_false_iff.mp hany
      rw [List.cons_append]
      have hstep : (q :: (t ++ [(k, v)])).find? (fun p => p.1 == k)
          = (t ++ [(k, v)]).find? (fun p => p.1 == k) :=
        List.find?_cons_of_neg _ (by simp [h1])
      rw [hstep]
      exact ih h2

theorem beqString_symm_false (a b : String) (h : (a == b) = false) :
    (b == a) = false := by
  rcases hb : (b == a) with _ | _
  · rfl
  · rw [eq_of_beq hb] at h
    simp at h

theorem getProp_setProp_self (m : JsError) (k : String) (v : JVal) :
    getProp (setProp m k v) k = some v := by
  unfold getProp setProp
  by_cases hany : m.any (fun p => p.1 == k) = true
  · rw [if_pos hany, find_map_overwrite m k v hany]
    rfl
  · have hfalse : m.any (fun p => p.1 == k) = false := by
      rcases hB : m.any (fun p => p.1 == k) with _ | _
      · rfl
      · exact absurd hB hany
    rw [if_neg hany, find_append_missing m k v hfalse]
    rfl

theorem find_map_ne (m : JsError) (k kq : String) (v : JVal)
    (hne : (kq == k) = false) :
    (m.map (fun p => if p.1 == k then (k, v) else p)).find? (fun p => p.1 == kq)
      = m.find? (fun p => p.1 == kq) := by
  have hkk : (k == kq) = false := beqString_symm_false kq k hne
  induction m with
  | nil => rfl
  | cons q t ih =>
      rw [List.map_cons]
      by_cases hq : (q.1 == k) = true
      · have hqq : (q.1 == kq) = false := by rw [eq_of_beq hq]; exact hkk
        have hL : ((if (q.1 == k) = true then (k, v) else q) ::
            t.map (fun p => if p.1 == k then (k, v) else p)).find? (fun p => p.1 == kq)
            = (t.map (fun p => if p.1 == k then (k, v) else p)).find? (fun p => p.1 == kq) := by
          apply List.find?_cons_of_neg
          rw [if_pos hq]
          simp [hkk]
        have hR : (q :: t).find? (fun p => p.1 == kq) = t.find? (fun p => p.1 == kq) :=
          List.find?_cons_of_neg _ (by simp [hqq])
        rw [hL, ih, hR]
      · by_cases hqk : (q.1 == kq) = true
        · have hL : ((if (q.1 == k) = true then (k, v) else q) ::
              t.map (fun p => if p.1 == k then (k, v) else p)).find? (fun p => p.1 == kq)
              = some (if (q.1 == k) = true then (k, v) else q) := by
            apply List.find?_cons_of_pos
            rw [if_neg hq]
            exact hqk
          have hR : (q :: t).find? (fun p => p.1 == kq) = some q :=
            List.find?_cons_of_pos _ hqk
          rw [hL, hR, if_neg hq]
        · have hL : ((if (q.1 == k) = true then (k, v) else q) ::
              t.map (fun p => if p.1 == k then (k, v) else p)).find? (fun p => p.1 == kq)
              = (t.map (fun p => if p.1 == k then (k, v) else p)).find? (fun p => p.1 == kq) := by
            apply List.find?_cons_of_neg
            rw [if_neg hq]
            exact hqk
          have hR : (q :: t).find? (fun p => p.1 == kq) = t.find? (fun p => p.1 == kq) :=
            List.find?_cons_of_neg _ hqk
          rw [hL, ih, hR]

theorem getProp_setProp_ne (m : JsError) (k kq : String) (v : JVal)
    (hne : (kq == k) = false) :
    getProp (setProp m k v) kq = getProp m kq := by
  have hkk : (k == kq) = false := beqString_symm_false kq k hne
  unfold getProp setProp
  by_cases hany : m.any (fun p => p.1 == k) = true
  · rw [if_pos hany, find_map_ne m k kq v hne]
  · rw [if_neg hany, List.find?_append]
    have hstep : ((k, v) :: ([] : List (String × JVal))).find? (fun p => p.1 == kq)
        = ([] : List (String × JVal)).find? (fun p => p.1 == kq) :=
      List.find?_cons_of_neg _ (by simp [hkk])
    have hnone : ([(k, v)].find? (fun p => p.1 == kq)) = none := hstep.trans rfl
    rw [hnone, Option.or_none]

theorem getProp_foldl_ne (props : List (String × JVal)) (e : JsError) (kq : String)
    (hnotin : ∀ p ∈ props, (p.1 == kq) = false) :
    getProp (props.foldl (fun t q => setProp t q.1 q.2) e) kq = getProp e kq := by
  induction props generalizing e with
  | nil => rfl
  | cons q rest ih =>
      have hq : (q.1 == kq) = false := hnotin q (by simp)
      have hne : (kq == q.1) = false := beqString_symm_false q.1 kq hq
      calc getProp ((q :: rest).foldl (fun t r => setProp t r.1 r.2) e) kq
          = getProp (rest.foldl (fun t r => setProp t r.1 r.2) (setProp e q.1 q.2)) kq := rfl
        _ = getProp (setProp e q.1 q.2) kq :=
            ih (setProp e q.1 q.2) (fun p hp => hnotin p (List.mem_cons_of_mem _ hp))
        _ = getProp e kq := getProp_setProp_ne e q.1 kq q.2 hne

theorem getProp_foldl_mem :
    ∀ (props : List (String × JVal)), (props.map Prod.fst).Nodup →
      ∀ (e : JsError), ∀ p ∈ props,
        getProp (props.foldl (fun t q => setProp t q.1 q.2) e) p.1 = some p.2 := by
  intro props
  induction props with
  | nil =>
      intro _ e p hp
      cases hp
  | cons q rest ih =>
      intro hnd e p hp
      have hnd2 : q.1 ∉ rest.map Prod.fst ∧ (rest.map Prod.fst).Nodup := by
        rw [List.map_cons] at hnd
        exact List.nodup_cons.mp hnd
      rcases List.mem_cons.mp hp with hq | hmem
      · have hnotin : ∀ r ∈ rest, (r.1 == q.1) = false := by
          intro r hr
          rcases hb : (r.1 == q.1) with _ | _
          · rfl
          · have hm : r.1 ∈ rest.map Prod.fst := List.mem_map_of_mem Prod.fst hr
            rw [eq_of_beq hb] at hm
            exact absurd hm hnd2.1
        rw [hq]
        show getProp (rest.foldl (fun t r => setProp t r.1 r.2) (setProp e q.1 q.2)) q.1
          = some q.2
        rw [getProp_foldl_ne rest (setProp e q.1 q.2) q.1 hnotin]
        exact getProp_setProp_self e q.1 q.2
      · show getProp (rest.foldl (fun t r => setProp t r.1 r.2) (setProp e q.1 q.2)) p.1
          = some p.2
        exact ih hnd2.2 (setProp e q.1 q.2) p hmem

/-- C9: decoding an error descriptor with `objectToError` yields, for a
string descriptor, an error whose `message` property is exactly that string;
and for an object descriptor with distinct keys, an error that carries every
enumerable own property of the object with the same value (so `name`,
`message`, `stack` and custom properties are preserved). -/
theorem c9_objectToError_decode (s : String) (props : List (String × JVal))
    (hnd : (props.map Prod.fst).Nodup) :
    getProp (objectToError (ErrDescriptor.dstr s)) "message" = some (JVal.jstr s) ∧
    ∀ p ∈ props, getProp (objectToError (ErrDescriptor.dobj props)) p.1 = some p.2 := by
  constructor
  · rfl
  · exact fun p hp => getProp_foldl_mem props hnd (mkError "") p hp

/-- C9 witness: decoding `{name: "RangeError", message: "oops"}` preserves
both properties, and decoding the string "boom" gives message "boom". -/
theorem c9_objectToError_decode_w :
    getProp (objectToError (ErrDescriptor.dstr "boom")) "message"
      = some (JVal.jstr "boom") ∧
    getProp (objectToError (ErrDescriptor.dobj
        [("name", JVal.jstr "RangeError"), ("message", JVal.jstr "oops")])) "name"
      = some (JVal.jstr "RangeError") :=
  ⟨(c9_objectToError_decode "boom"
      [("name", JVal.jstr "RangeError"), ("message", JVal.jstr "oops")] (by decide)).1,
   (c9_objectToError_decode "boom"
      [("name", JVal.jstr "RangeError"), ("message", JVal.jstr "oops")] (by decide)).2
      ("name", JVal.jstr "RangeError") (by decide)⟩

end WH

namespace WH

/-- C10: processing an inbound message with `isEvent: true` for a task id
present in the in-flight table calls `task.options.on(payload)` when such a
callback was provided (and calls nothing otherwise), and changes nothing
else: the task record stays in the table with its resolver unsettled, and
the request/response counters, the timing statistics, the worker's ready
flag, and the terminating/terminated flags are all unchanged. -/
theorem c10_event_frame (h : HState) (now : Nat) (id : Nat) (payload : JVal)
    (task : TaskRec) (hT : h.terminated = false) (hL : lookupTask h id = some task) :
    (handleMessage h now (InMsg.resp id true payload none JVal.undef)).eventLog
      = (if task.hasOn then h.eventLog ++ [(id, payload)] else h.eventLog) ∧
    lookupTask (handleMessage h now (InMsg.resp id true payload none JVal.undef)) id
      = some task ∧
    (handleMessage h now (InMsg.resp id true payload none JVal.undef)).processing
      = h.processing ∧
    (handleMessage h now (InMsg.resp id true payload none JVal.undef)).settlements
      = h.settlements ∧
    (handleMessage h now (InMsg.resp id true payload none JVal.undef)).requestCount
      = h.requestCount ∧
    (handleMessage h now (InMsg.resp id true payload none JVal.undef)).responseCount
      = h.responseCount ∧
    (handleMessage h now (InMsg.resp id true payload none JVal.undef)).totalTime
      = h.totalTime ∧
    (handleMessage h now (InMsg.resp id true payload none JVal.undef)).minTime
      = h.minTime ∧
    (handleMessage h now (InMsg.resp id true payload none JVal.undef)).maxTime
      = h.maxTime ∧
    (handleMessage h now (InMsg.resp id true payload none JVal.undef)).lastTime
      = h.lastTime ∧
    (handleMessage h now (InMsg.resp id true payload none JVal.undef)).worker
      = h.worker ∧
    (handleMessage h now (InMsg.resp id true payload none JVal.undef)).terminating
      = h.terminating ∧
    (handleMessage h now (InMsg.resp id true payload none JVal.undef)).terminated
      = h.terminated := by
  rcases hon : task.hasOn with _ | _
  · have hred2 : handleMessage h now (InMsg.resp id true payload none JVal.undef) = h := by
      simp [handleMessage, hT, hL, hon]
    rw [hred2]
    exact ⟨rfl, hL, rfl, rfl, rfl, rfl, rfl, rfl, rfl, rfl, rfl, rfl, rfl⟩
  · have hred2 : handleMessage h now (InMsg.resp id true payload none JVal.undef)
        = { h with eventLog := h.eventLog ++ [(id, payload)] } := by
      simp [handleMessage, hT, hL, hon]
    rw [hred2]
    refine ⟨rfl, ?_, rfl, rfl, rfl, rfl, rfl, rfl, rfl, rfl, rfl, rfl, rfl⟩
    exact hL

/-- A ready handler with one in-flight task that supplied an `options.on`
event callback. -/
def c10Start : HState := execS (initHandler optBase) 0 "stream" true

/-- C10 witness: an event message for task 1 of `c10Start` logs the payload
and leaves the task in flight with nothing settled. -/
theorem c10_event_frame_w :
    (handleMessage c10Start 3 (InMsg.resp 1 true (JVal.jstr "a") none JVal.undef)).settlements
      = c10Start.settlements ∧
    lookupTask (handleMessage c10Start 3 (InMsg.resp 1 true (JVal.jstr "a") none JVal.undef)) 1
      = some { id := 1, hasOn := true, started := 0 } :=
  ⟨(c10_event_frame c10Start 3 1 (JVal.jstr "a")
      { id := 1, hasOn := true, started := 0 } rfl (by decide)).2.2.2.1,
   (c10_event_frame c10Start 3 1 (JVal.jstr "a")
      { id := 1, hasOn := true, started := 0 } rfl (by decide)).2.1⟩

end WH
